import Mathlib

/-!
Shallow embedding of the command layer of the text-MOBA game
(src/commands.cpp, src/text_moba.h).  The command handlers are
transliterated from `commands.cpp`; the collaborator classes that the
repository does not ship (MapNode, Character, Skill, CharacterGroups,
TurnController) are modelled from the specification.
-/

set_option maxHeartbeats 1000000

/-- Team allegiance, from the `Team` enum in text_moba.h. -/
inductive Team where
  | BLUE
  | RED
  | NEUTRAL
deriving DecidableEq, Repr

/-- Row placement, from the `Place` enum in text_moba.h. -/
inductive Place where
  | BACK
  | FRONT
deriving DecidableEq, Repr

/-- Targeting mode of a skill: Single, AnyRow, or the implicit
skill-defined default set (spec section 4.4). -/
inductive TargetMode where
  | SINGLE
  | ANY_ROW
  | OTHER
deriving DecidableEq, Repr

/-- Modelled from the spec: the built-in rule a skill with no explicit
target uses to pick its targets ("all allies, all enemies, self",
spec section 4.4). -/
inductive ImplicitRule where
  | allAllies
  | allEnemies
  | selfOnly
deriving DecidableEq, Repr

/-- Modelled from the spec: a skill (spec section 3 and 4.4).  Skill.h is
not part of the sources, so usability is abstracted as a boolean
readiness gate and the effect as a flat damage amount applied to each
target. -/
structure Skill where
  name : String
  targetMode : TargetMode
  manaCost : Int
  usableFlag : Bool
  targetTeam : Team
  range : Nat
  damage : Nat
  implicitRule : ImplicitRule
deriving DecidableEq, Repr

/-- Modelled from the spec: a combatant (spec section 3).  character.h is
not part of the sources; the fields are the ones the command layer
reads and writes. -/
structure Character where
  name : String
  team : Team
  place : Place
  hp : Nat
  maxHP : Nat
  mana : Int
  level : Nat
  range : Nat
  attackDamage : Nat
  skills : List Skill
deriving DecidableEq, Repr

/-- Modelled from the spec: a character is alive while its health is
positive; Alive transitions to Dead when health reaches 0
(spec section 4.3). -/
def Character.isAlive (c : Character) : Bool :=
  c.hp != 0

/-- Modelled from the spec: case-sensitive lookup among owned skills by
exact invocation name (spec section 4.3). -/
def Character.skill (c : Character) (nm : String) : Option Skill :=
  c.skills.find? (fun s => s.name == nm)

/-- Transliteration of `toLower` from commands.cpp: codepoint-wise
lowercasing (std::tolower in the C locale only affects ASCII, matching
Char.toLower). -/
def toLower (s : String) : String :=
  String.mk (s.data.map Char.toLower)

/-- Modelled from the spec: the distance table of CharacterGroups
(spec section 3): same row and team 0; same team different row 1;
opposing teams both front 1; opposing teams one front one back 2;
opposing teams both back 3. -/
def distanceBetween (a b : Character) : Nat :=
  if a.team = b.team then
    if a.place = b.place then 0 else 1
  else
    match a.place, b.place with
    | Place.FRONT, Place.FRONT => 1
    | Place.BACK, Place.BACK => 3
    | _, _ => 2

/-- Modelled from the spec: a map node (spec section 3): a unique name,
labeled exits (label, destination-node name) and the roster of
characters present, in display order. -/
structure MapNode where
  name : String
  exits : List (String × String)
  characters : List Character
deriving DecidableEq, Repr

/-- Modelled from the spec: case-normalized (lowercased) exit-label
lookup; none if the node has no exit under that label
(spec section 4.1). -/
def MapNode.destination (n : MapNode) (dir : String) : Option String :=
  (n.exits.find? (fun e => toLower e.1 == toLower dir)).map (fun e => e.2)

/-- Modelled from the spec: ordered mapping destination to the labels
leading there, merging all labels with the same destination
(spec section 4.1). -/
def MapNode.paths (n : MapNode) : List (String × List String) :=
  n.exits.foldl
    (fun acc e =>
      if acc.any (fun pr => pr.1 == e.2) then
        acc.map (fun pr => if pr.1 == e.2 then (pr.1, pr.2 ++ [e.1]) else pr)
      else
        acc ++ [(e.2, [e.1])])
    []

/-- Modelled from the spec: display-index lookup; the display index is
the array position in the roster, and out-of-range indices return none
(spec sections 4.2 and 9). -/
def MapNode.characterAt (n : MapNode) (i : Nat) : Option Character :=
  n.characters.get? i

/-- The simulation state threaded through the command handlers: the map
nodes (each owning its roster), the name of the player character, and
the turn counter. -/
structure GameState where
  nodes : List MapNode
  playerName : String
  turn : Nat
deriving DecidableEq, Repr

/-- The node whose roster contains the player character. -/
def GameState.playerNode? (st : GameState) : Option MapNode :=
  st.nodes.find? (fun n => n.characters.any (fun c => c.name == st.playerName))

/-- The player character, looked up in its node's roster. -/
def GameState.player? (st : GameState) : Option Character :=
  st.playerNode?.bind (fun n => n.characters.find? (fun c => c.name == st.playerName))

/-- Rewrites every character with the given name, wherever it appears in
a roster. -/
def GameState.updateCharacter (st : GameState) (nm : String) (f : Character → Character) :
    GameState :=
  { st with nodes := st.nodes.map (fun n =>
      { n with characters := n.characters.map (fun c => if c.name == nm then f c else c) }) }

/-- Modelled from the spec: TurnController.moveCharacter removes the
character from its current node's roster and adds it to the
destination's roster (spec section 4.6). -/
def GameState.moveCharacter (st : GameState) (ch : Character) (destName : String) :
    GameState :=
  { st with nodes := st.nodes.map (fun n =>
      let removed := n.characters.filter (fun c => c.name != ch.name)
      if n.name == destName then { n with characters := removed ++ [ch] }
      else { n with characters := removed }) }

/-- Modelled from the spec: TurnController.placeCharacter updates the row
only, with no node change (spec section 4.6). -/
def GameState.placeCharacter (st : GameState) (ch : Character) (pl : Place) : GameState :=
  st.updateCharacter ch.name (fun c => { c with place := pl })

/-- Modelled from the spec: TurnController.nextTurn advances world time
by one discrete unit (spec section 4.6); cooldown decay and respawn
countdowns are outside the modelled state, so only the turn counter
moves. -/
def GameState.nextTurn (st : GameState) : GameState :=
  { st with turn := st.turn + 1 }

/-- Modelled from the spec: Character.attack applies the attacker's base
damage to the target's health, clamped at 0, with no validation
(spec section 4.3).  Nat subtraction gives the clamping. -/
def Character.attackEffect (attacker : Character) (targetName : String) (st : GameState) :
    GameState :=
  st.updateCharacter targetName (fun c => { c with hp := c.hp - attacker.attackDamage })

/-- Modelled from the spec: Skill.targets in Single mode returns a
one-element vector when the target is within the skill's range of the
caster per distanceBetween, else empty (spec section 4.4). -/
def Skill.targetsSingle (sk : Skill) (caster target : Character) : List Character :=
  if distanceBetween caster target ≤ sk.range then [target] else []

/-- Modelled from the spec: Skill.targets in AnyRow mode returns all
enemy characters alive in the chosen row who are within range
(spec section 4.4). -/
def Skill.targetsRow (sk : Skill) (caster : Character) (node : MapNode) (pl : Place) :
    List Character :=
  node.characters.filter (fun c =>
    (c.team != caster.team) && c.isAlive && (c.place == pl)
      && decide (distanceBetween caster c ≤ sk.range))

/-- Modelled from the spec: Skill.targets with no explicit target returns
all valid targets by the skill's own built-in rule (all allies, all
enemies, or self; spec section 4.4). -/
def Skill.targetsImplicit (sk : Skill) (caster : Character) (node : MapNode) :
    List Character :=
  match sk.implicitRule with
  | ImplicitRule.selfOnly => [caster]
  | ImplicitRule.allAllies =>
      node.characters.filter (fun c => c.isAlive && (c.team == caster.team))
  | ImplicitRule.allEnemies =>
      node.characters.filter (fun c => c.isAlive && (c.team != caster.team))

/-- Modelled from the spec: Skill.useOn applies the skill's effect to
every character in the given vector; it does not deduct mana — cost
deduction is not internal to useOn (spec section 4.4). -/
def Skill.useOn (sk : Skill) (targets : List Character) (st : GameState) : GameState :=
  targets.foldl
    (fun s t => s.updateCharacter t.name (fun c => { c with hp := c.hp - sk.damage }))
    st

/-- Observable outcome of one command-handler run: the lines printed, the
resulting state, the boolean the handler returns (true means the command
completed), and a trace of the collaborator calls the handler made. -/
structure ExecResult where
  output : List String
  state : GameState
  completed : Bool
  nextTurnCalls : Nat
  attackCalled : Bool
  useOnCalled : Bool
  moveCharacterCalled : Bool
  placeCharacterCalled : Bool
  lookCalls : Nat
  uncaughtException : Bool
deriving DecidableEq, Repr

/-- Result of a handler that printed nothing, changed nothing and
returned true. -/
def ExecResult.base (st : GameState) : ExecResult :=
  { output := []
    state := st
    completed := true
    nextTurnCalls := 0
    attackCalled := false
    useOnCalled := false
    moveCharacterCalled := false
    placeCharacterCalled := false
    lookCalls := 0
    uncaughtException := false }

/-- The fixed message printed by the dead-player guard in commands.cpp. -/
def deadMessage : String :=
  "You are dead... Please use the command \"wait\" until you respawn."

/-- Shared plumbing: every handler in commands.cpp reads `player()` and
`player()->node()`; if the state has no player character the handler's
behavior is outside the embedding and it does nothing. -/
def withPlayer (st : GameState) (body : MapNode → Character → ExecResult) : ExecResult :=
  match st.playerNode? with
  | none => ExecResult.base st
  | some node =>
    match node.characters.find? (fun c => c.name == st.playerName) with
    | none => ExecResult.base st
    | some p => body node p

/-- Whitespace recognized by std::stoi's leading-space skip (isspace in
the C locale). -/
def isSpaceChar (c : Char) : Bool :=
  c == ' ' || c == '\t' || c == '\n' || c == '\x0b' || c == '\x0c' || c == '\r'

/-- Value of the leading run of decimal digits; none when there is no
digit (std::stoi's invalid_argument case).  Trailing non-digit
characters are ignored, as std::stoi does. -/
def digitsValue (cs : List Char) : Option Nat :=
  let ds := cs.takeWhile Char.isDigit
  if ds.isEmpty then none
  else some (ds.foldl (fun n c => n * 10 + (c.toNat - 48)) 0)

/-- The mathematical value std::stoi would parse: optional leading
whitespace, optional sign, leading decimal digits; none when no digits
follow (invalid_argument). -/
def stoiParse (s : String) : Option Int :=
  match s.toList.dropWhile isSpaceChar with
  | '-' :: rest => (digitsValue rest).map (fun n => -(n : Int))
  | '+' :: rest => (digitsValue rest).map (fun n => (n : Int))
  | rest => (digitsValue rest).map (fun n => (n : Int))

/-- Outcome of std::stoi with a 32-bit int result type: a value, an
invalid_argument exception, or an out_of_range exception. -/
inductive StoiResult where
  | ok (i : Int)
  | invalidArgument
  | outOfRange
deriving DecidableEq, Repr

/-- std::stoi on a 32-bit int: invalid_argument when no digits parse,
out_of_range when the parsed value does not fit in int. -/
def stoi (s : String) : StoiResult :=
  match stoiParse s with
  | none => StoiResult.invalidArgument
  | some i =>
      if -2147483648 ≤ i ∧ i ≤ 2147483647 then StoiResult.ok i
      else StoiResult.outOfRange

/-- Conversion of the int result of std::stoi to the `unsigned index`
variable of commands.cpp: reduction modulo 2^32. -/
def intToUnsigned (i : Int) : Nat :=
  (i % 4294967296).toNat

/-- Human-readable row name used by the look rendering. -/
def Place.placeName : Place → String
  | Place.BACK => "back"
  | Place.FRONT => "front"

/-- Transliteration of the body of LookCommand::exec with one argument:
the node description followed by one roster line per character, in
display order. -/
def lookLines (node : MapNode) (p : Character) : List String :=
  ("You are at " ++ node.name ++ ".")
    :: "Here, there is"
    :: node.characters.enum.map (fun ic =>
        "  " ++ toString ic.1 ++ ": [" ++ ic.2.place.placeName ++ "] " ++ ic.2.name
          ++ " (lvl " ++ toString (ic.2.level + 1) ++ ", " ++ toString ic.2.hp
          ++ " / " ++ toString ic.2.maxHP ++ ") dist: "
          ++ toString (distanceBetween p ic.2))

/-- Transliteration of LookCommand::exec from commands.cpp. -/
def LookCommand.exec (st : GameState) (args : List String) : ExecResult :=
  withPlayer st (fun node p =>
    if ¬ p.isAlive then { ExecResult.base st with output := [deadMessage] }
    else if args.length = 1 then { ExecResult.base st with output := lookLines node p }
    else ExecResult.base st)

/-- Transliteration of DirectionsCommand::exec from commands.cpp. -/
def DirectionsCommand.exec (st : GameState) (_args : List String) : ExecResult :=
  withPlayer st (fun node p =>
    if ¬ p.isAlive then { ExecResult.base st with output := [deadMessage] }
    else
      { ExecResult.base st with
          output := "From here, you can go toward:"
            :: node.paths.map (fun pr =>
                "  " ++ String.intercalate ", " pr.2 ++ ": toward " ++ pr.1) })

/-- Transliteration of WaitCommand::exec from commands.cpp: it calls
nextTurn unconditionally — there is no dead-player guard here. -/
def WaitCommand.exec (st : GameState) (_args : List String) : ExecResult :=
  { ExecResult.base st.nextTurn with nextTurnCalls := 1 }

/-- Transliteration of GoCommand::exec from commands.cpp. -/
def GoCommand.exec (st : GameState) (args : List String) : ExecResult :=
  withPlayer st (fun node p =>
    if ¬ p.isAlive then { ExecResult.base st with output := [deadMessage] }
    else
      match args with
      | [_a0, dirArg] =>
        let dir := toLower dirArg
        match node.destination dir with
        | some destName =>
          let st1 := st.moveCharacter p destName
          let lookRes := LookCommand.exec st1 ["look"]
          { ExecResult.base st1.nextTurn with
              output := lookRes.output
              moveCharacterCalled := true
              lookCalls := 1
              nextTurnCalls := 1 }
        | none =>
          { ExecResult.base st with output := ["Unknown direction \"" ++ dir ++ "\""] }
      | a0 :: _ =>
        { ExecResult.base st with
            output := ["I don't understand where you want to go. Type",
                       "  " ++ a0 ++ " <direction>"] }
      | [] => ExecResult.base st)

/-- Transliteration of MoveCommand::exec from commands.cpp. -/
def MoveCommand.exec (st : GameState) (args : List String) : ExecResult :=
  withPlayer st (fun _node p =>
    if ¬ p.isAlive then { ExecResult.base st with output := [deadMessage] }
    else
      match args with
      | [a0, arg1] =>
        if arg1 ≠ "front" ∧ arg1 ≠ "back" then
          { ExecResult.base st with
              output := ["I don't understand where you want to go. Type",
                         "  " ++ a0 ++ " [front|back]"] }
        else
          let pl := if arg1 = "front" then Place.FRONT else Place.BACK
          if pl = p.place then
            { ExecResult.base st with
                output := ["You already are at the " ++ arg1 ++ " row."] }
          else
            { ExecResult.base (st.placeCharacter p pl).nextTurn with
                placeCharacterCalled := true
                nextTurnCalls := 1 }
      | a0 :: _ =>
        { ExecResult.base st with
            output := ["I don't understand where you want to go. Type",
                       "  " ++ a0 ++ " [front|back]"] }
      | [] => ExecResult.base st)

/-- Transliteration of AttackCommand::exec from commands.cpp.  Only
std::invalid_argument is caught there, so an out-of-range numeral lets
the exception escape. -/
def AttackCommand.exec (st : GameState) (args : List String) : ExecResult :=
  withPlayer st (fun node p =>
    if ¬ p.isAlive then { ExecResult.base st with output := [deadMessage] }
    else
      match args with
      | [_a0, idxArg] =>
        match stoi idxArg with
        | StoiResult.invalidArgument =>
          { ExecResult.base st with output := ["I don't understand who you try to attack."] }
        | StoiResult.outOfRange =>
          { ExecResult.base st with uncaughtException := true }
        | StoiResult.ok i =>
          match node.characterAt (intToUnsigned i) with
          | none => { ExecResult.base st with output := ["Invalid target."] }
          | some target =>
            if ¬ target.isAlive then
              { ExecResult.base st with output := ["Invalid target."] }
            else if target.team = p.team then
              { ExecResult.base st with output := ["You cannot attack allies."] }
            else if p.range < distanceBetween p target then
              { ExecResult.base st with output := ["Target out of range."] }
            else
              { ExecResult.base (p.attackEffect target.name st).nextTurn with
                  attackCalled := true
                  nextTurnCalls := 1 }
      | a0 :: _ =>
        { ExecResult.base st with
            output := ["I don't understand who you want to attack. Type",
                       "  " ++ a0 ++ " <character-number>",
                       "where <character-number> is the number displayed",
                       "when you type \"look\"."] }
      | [] => ExecResult.base st)

/-- Transliteration of the tail of UseCommand::exec shared by every
targeting mode: the empty-targets check, then mana deduction by the
command layer, useOn, and nextTurn. -/
def useFinish (st : GameState) (p : Character) (sk : Skill) (targets : List Character) :
    ExecResult :=
  if targets.isEmpty then
    { ExecResult.base st with output := ["No targets in range."] }
  else
    let st1 := st.updateCharacter p.name (fun c => { c with mana := c.mana - sk.manaCost })
    let st2 := sk.useOn targets st1
    { ExecResult.base st2.nextTurn with useOnCalled := true, nextTurnCalls := 1 }

/-- Transliteration of UseCommand::exec from commands.cpp. -/
def UseCommand.exec (st : GameState) (args : List String) : ExecResult :=
  withPlayer st (fun node p =>
    if ¬ p.isAlive then { ExecResult.base st with output := [deadMessage] }
    else
      match args with
      | _a0 :: skillName :: rest =>
        match p.skill skillName with
        | none =>
          { ExecResult.base st with output := ["You don't have a skill called " ++ skillName] }
        | some sk =>
          if ¬ sk.usableFlag then
            { ExecResult.base st with output := ["You can't use this skill right now."] }
          else
            match sk.targetMode with
            | TargetMode.SINGLE =>
              match rest with
              | [idxArg] =>
                match stoi idxArg with
                | StoiResult.invalidArgument =>
                  { ExecResult.base st with
                      output := ["I don't understand who you're trying to attack."] }
                | StoiResult.outOfRange =>
                  { ExecResult.base st with uncaughtException := true }
                | StoiResult.ok i =>
                  match node.characterAt (intToUnsigned i) with
                  | none => { ExecResult.base st with output := ["Invalid target."] }
                  | some target =>
                    if ¬ target.isAlive then
                      { ExecResult.base st with output := ["Invalid target."] }
                    else if target.team ≠ sk.targetTeam then
                      { ExecResult.base st with output := ["Target is in the wrong team."] }
                    else
                      if (sk.targetsSingle p target).isEmpty then
                        { ExecResult.base st with output := ["Target is out-of-range."] }
                      else useFinish st p sk (sk.targetsSingle p target)
              | _ =>
                { ExecResult.base st with
                    output := ["This skill targets a single foe and so takes a <character-number> in parameter."] }
            | TargetMode.ANY_ROW =>
              match rest with
              | [rowArg] =>
                if rowArg ≠ "front" ∧ rowArg ≠ "back" then
                  { ExecResult.base st with
                      output := ["This skill target a row so you need to choose between  \"front\" or \"back\". The row must be in range."] }
                else
                  useFinish st p sk
                    (sk.targetsRow p node (if rowArg = "front" then Place.FRONT else Place.BACK))
              | _ =>
                { ExecResult.base st with
                    output := ["This skill target a row so you need to choose between  \"front\" or \"back\". The row must be in range."] }
            | TargetMode.OTHER =>
              useFinish st p sk (sk.targetsImplicit p node)
      | _ =>
        { ExecResult.base st with
            output := ["I don't understand what you try to use. Type",
                       "  " ++ (args.headD "use") ++ " <skill-name> [<character-number>|front|back]"] })

/-- Observable outcome of one RestartCommand::exec run: the lines
printed, the returned boolean, the _readClass flag after the call, and
the class name passed to TextMoba::restart when it was called.  The
world reset itself is performed by TextMoba::restart, outside the
command layer, so only the call is recorded. -/
structure RestartResult where
  output : List String
  completed : Bool
  readClass : Bool
  restartCalled : Option String
deriving DecidableEq, Repr

/-- Transliteration of the tail of RestartCommand::exec once the class
name is determined. -/
def restartFinish (readClass : Bool) (className : String) : RestartResult :=
  if className = "warrior" ∨ className = "ranger" ∨ className = "mage" then
    { output := [], completed := true, readClass := false, restartCalled := some className }
  else
    { output := ["Unknown class name " ++ className,
                 "Please enter one class name: warrior, ranger or mage."]
      completed := !readClass
      readClass := readClass
      restartCalled := none }

/-- Transliteration of RestartCommand::exec from commands.cpp, with the
_readClass member made an explicit argument and result field. -/
def RestartCommand.exec (readClass : Bool) (args : List String) : RestartResult :=
  match readClass, args with
  | false, [_a0] =>
    { output := ["Choose your class: [ warrior, ranger, mage ]"]
      completed := false
      readClass := true
      restartCalled := none }
  | false, [_a0, cls] => restartFinish false cls
  | false, a0 :: _ =>
    { output := [a0 ++ " takes 0 or 1 parameter."]
      completed := true
      readClass := false
      restartCalled := none }
  | false, [] =>
    { output := [], completed := true, readClass := false, restartCalled := none }
  | true, [cls] => restartFinish true cls
  | true, _ =>
    { output := ["Please enter one class name: warrior, ranger or mage."]
      completed := false
      readClass := true
      restartCalled := none }

/-- Single-target bomb skill used by the concrete test world. -/
def bombSkill : Skill :=
  { name := "bomb"
    targetMode := TargetMode.SINGLE
    manaCost := 3
    usableFlag := true
    targetTeam := Team.RED
    range := 2
    damage := 4
    implicitRule := ImplicitRule.allEnemies }

/-- Player character of the concrete test world. -/
def heroChar : Character :=
  { name := "hero"
    team := Team.BLUE
    place := Place.FRONT
    hp := 20
    maxHP := 20
    mana := 10
    level := 0
    range := 2
    attackDamage := 5
    skills := [bombSkill] }

/-- Enemy character of the concrete test world. -/
def orcChar : Character :=
  { name := "orc"
    team := Team.RED
    place := Place.FRONT
    hp := 8
    maxHP := 8
    mana := 0
    level := 1
    range := 1
    attackDamage := 2
    skills := [] }

/-- Starting node of the concrete test world, with one exit. -/
def baseNode : MapNode :=
  { name := "Base"
    exits := [("red", "RedCamp")]
    characters := [heroChar, orcChar] }

/-- Destination node of the concrete test world. -/
def redCampNode : MapNode :=
  { name := "RedCamp", exits := [], characters := [] }

/-- Concrete test world: an alive player and an enemy at Base. -/
def stGame : GameState :=
  { nodes := [baseNode, redCampNode], playerName := "hero", turn := 0 }

/-- Dead variant of the player character (hp 0). -/
def deadHero : Character :=
  { heroChar with hp := 0 }

/-- Node of the dead-player test world. -/
def deadNode : MapNode :=
  { name := "Base", exits := [], characters := [deadHero] }

/-- Concrete test world whose player is dead. -/
def stDead : GameState :=
  { nodes := [deadNode], playerName := "hero", turn := 0 }

theorem find?_map_pres {α : Type} (p : α → Bool) (g : α → α)
    (h : ∀ a, p (g a) = p a) :
    ∀ (l : List α), (l.map g).find? p = (l.find? p).map g := by
  intro l
  induction l with
  | nil => rfl
  | cons a t ih =>
    cases hpa : p a with
    | true =>
      rw [List.map_cons, List.find?_cons_of_pos _ (by rw [h]; exact hpa),
          List.find?_cons_of_pos _ hpa]
      rfl
    | false =>
      rw [List.map_cons, List.find?_cons_of_neg _ (by rw [h, hpa]; exact Bool.false_ne_true),
          List.find?_cons_of_neg _ (by rw [hpa]; exact Bool.false_ne_true), ih]

theorem any_map_pres {α : Type} (p : α → Bool) (g : α → α)
    (h : ∀ a, p (g a) = p a) :
    ∀ (l : List α), (l.map g).any p = l.any p := by
  intro l
  induction l with
  | nil => rfl
  | cons a t ih => simp [List.any_cons, h a, ih]

theorem filter_ne_any {α : Type} (f : α → String) (nm : String) (l : List α) :
    (l.filter (fun c => f c != nm)).any (fun c => f c == nm) = false := by
  induction l with
  | nil => rfl
  | cons a t ih =>
    by_cases ha : f a = nm
    · simp [List.filter_cons, ha, ih]
    · simp [List.filter_cons, ha, ih]

theorem filter_ne_find? {α : Type} (f : α → String) (nm : String) (l : List α) :
    (l.filter (fun c => f c != nm)).find? (fun c => f c == nm) = none := by
  induction l with
  | nil => rfl
  | cons a t ih =>
    by_cases ha : f a = nm
    · simp [List.filter_cons, ha, ih]
    · simp [List.filter_cons, ha, ih, List.find?_cons_of_neg]

theorem player?_updateCharacter (st : GameState) (nm : String) (f : Character → Character)
    (hf : ∀ c, (f c).name = c.name) :
    (st.updateCharacter nm f).player?
      = st.player?.map (fun c => if c.name == nm then f c else c) := by
  have hcpres : ∀ c : Character,
      (((if c.name == nm then f c else c).name == st.playerName))
        = (c.name == st.playerName) := by
    intro c
    by_cases hc : c.name = nm
    · simp [hc, hf]
    · simp [hc]
  have hnodes := find?_map_pres
    (fun n : MapNode => n.characters.any (fun c => c.name == st.playerName))
    (fun n : MapNode => { n with characters := n.characters.map (fun c => if c.name == nm then f c else c) })
    (fun n => any_map_pres _ _ hcpres n.characters)
    st.nodes
  unfold GameState.player? GameState.playerNode? GameState.updateCharacter
  simp only
  rw [hnodes]
  cases st.nodes.find? (fun n => n.characters.any (fun c => c.name == st.playerName)) with
  | none => rfl
  | some n =>
    exact find?_map_pres _ _ hcpres n.characters

theorem player?_nextTurn (st : GameState) : st.nextTurn.player? = st.player? := rfl

theorem playerNode?_nextTurn (st : GameState) : st.nextTurn.playerNode? = st.playerNode? := rfl

theorem useOn_player_mana (sk : Skill) :
    ∀ (targets : List Character) (st : GameState),
      (sk.useOn targets st).player?.map (fun c => c.mana)
        = st.player?.map (fun c => c.mana) := by
  intro targets
  induction targets with
  | nil => intro st; rfl
  | cons t ts ih =>
    intro st
    show (Skill.useOn sk ts
        (st.updateCharacter t.name (fun c => { c with hp := c.hp - sk.damage }))).player?.map
          (fun c => c.mana)
      = st.player?.map (fun c => c.mana)
    rw [ih, player?_updateCharacter st t.name
          (fun c => { c with hp := c.hp - sk.damage }) (fun c => rfl)]
    cases st.player? with
    | none => rfl
    | some c =>
      show some (if c.name == t.name then { c with hp := c.hp - sk.damage } else c).mana
        = some c.mana
      by_cases hc : c.name = t.name
      · simp [hc]
      · simp [hc]

theorem placeCharacter_player_place (st : GameState) (p : Character) (pl : Place)
    (hp : st.player? = some p) :
    (st.placeCharacter p pl).player?.map (fun c => c.place) = some pl := by
  unfold GameState.placeCharacter
  rw [player?_updateCharacter st p.name (fun c => { c with place := pl }) (fun c => rfl), hp]
  simp

theorem updateCharacter_player_mana (st : GameState) (p : Character) (amt : Int)
    (hp : st.player? = some p) :
    (st.updateCharacter p.name (fun c => { c with mana := c.mana - amt })).player?.map
        (fun c => c.mana)
      = some (p.mana - amt) := by
  rw [player?_updateCharacter st p.name
        (fun c => { c with mana := c.mana - amt }) (fun c => rfl), hp]
  simp

theorem moveCharacter_find_aux (pn : String) (p : Character) (destName : String)
    (hpname : p.name = pn) :
    ∀ (l : List MapNode), (∃ n ∈ l, n.name = destName) →
      ∃ n', (l.map (fun n =>
              let removed := n.characters.filter (fun c => c.name != p.name)
              if n.name == destName then { n with characters := removed ++ [p] }
              else { n with characters := removed })).find?
                (fun n => n.characters.any (fun c => c.name == pn)) = some n'
        ∧ n'.name = destName
        ∧ n'.characters.find? (fun c => c.name == pn) = some p := by
  intro l
  induction l with
  | nil =>
    rintro ⟨n, hn, _⟩
    cases hn
  | cons a t ih =>
    rintro ⟨n, hn, hname⟩
    by_cases ha : a.name = destName
    · refine ⟨{ a with characters := a.characters.filter (fun c => c.name != p.name) ++ [p] }, ?_, ha, ?_⟩
      · rw [List.map_cons]
        have hbranch : (let removed := a.characters.filter (fun c => c.name != p.name)
            if a.name == destName then { a with characters := removed ++ [p] }
            else { a with characters := removed })
          = { a with characters := a.characters.filter (fun c => c.name != p.name) ++ [p] } := by
          simp [ha]
        rw [hbranch]
        apply List.find?_cons_of_pos
        simp only [List.any_append]
        have : ((p.name == pn) = true) := by simp [hpname]
        simp [this]
      · rw [List.find?_append]
        have hleft : (a.characters.filter (fun c => c.name != p.name)).find?
            (fun c => c.name == pn) = none := by
          subst hpname
          exact filter_ne_find? (fun c => c.name) p.name a.characters
        rw [hleft]
        simp [hpname]
    · rw [List.map_cons]
      have hbranch : (let removed := a.characters.filter (fun c => c.name != p.name)
          if a.name == destName then { a with characters := removed ++ [p] }
          else { a with characters := removed })
        = { a with characters := a.characters.filter (fun c => c.name != p.name) } := by
        simp [ha]
      rw [hbranch]
      have hnone : ({ a with characters := a.characters.filter (fun c => c.name != p.name) } :
          MapNode).characters.any (fun c => c.name == pn) = false := by
        subst hpname
        exact filter_ne_any (fun c => c.name) p.name a.characters
      rw [List.find?_cons_of_neg _ (by rw [hnone]; exact Bool.false_ne_true)]
      apply ih
      rcases List.mem_cons.mp hn with heq | hmem
      · exact absurd (heq ▸ hname) ha
      · exact ⟨n, hmem, hname⟩

theorem playerNode?_moveCharacter (st : GameState) (p : Character) (destName : String)
    (hpname : p.name = st.playerName) (hex : ∃ n ∈ st.nodes, n.name = destName) :
    ∃ n', (st.moveCharacter p destName).playerNode? = some n'
      ∧ n'.name = destName
      ∧ n'.characters.find? (fun c => c.name == st.playerName) = some p :=
  moveCharacter_find_aux st.playerName p destName hpname st.nodes hex

theorem player?_of_find (st : GameState) (node : MapNode) (p : Character)
    (hn : st.playerNode? = some node)
    (hfind : node.characters.find? (fun c => c.name == st.playerName) = some p) :
    st.player? = some p := by
  unfold GameState.player?
  rw [hn]
  exact hfind

theorem stoi_ok_bounds {s : String} {i : Int} (h : stoi s = StoiResult.ok i) :
    -2147483648 ≤ i ∧ i ≤ 2147483647 := by
  unfold stoi at h
  cases hp : stoiParse s with
  | none => rw [hp] at h; cases h
  | some j =>
    rw [hp] at h
    dsimp only at h
    split at h
    · rename_i hb
      cases h
      exact hb
    · cases h

theorem characterAt_intToUnsigned_neg (node : MapNode) {i : Int}
    (hlo : -2147483648 ≤ i) (hneg : i < 0)
    (hlen : node.characters.length ≤ 2147483648) :
    node.characterAt (intToUnsigned i) = none := by
  have hge : 2147483648 ≤ intToUnsigned i := by
    unfold intToUnsigned
    omega
  unfold MapNode.characterAt
  rw [List.get?_eq_none]
  omega

/-- Unusable variant of the bomb skill for the concrete test world. -/
def unusableBomb : Skill :=
  { bombSkill with usableFlag := false }

/-- Player variant owning only the unusable bomb. -/
def tiredHero : Character :=
  { heroChar with skills := [unusableBomb] }

/-- Test world whose player owns an unusable skill. -/
def stUnusable : GameState :=
  { nodes := [{ name := "Base", exits := [], characters := [tiredHero, orcChar] }]
    playerName := "hero"
    turn := 0 }

/-- C4: restart invoked with no argument prints the class prompt and
returns false requesting a continuation line; a continuation line equal
to warrior, ranger or mage triggers the world restart with that class
and returns true ending the dialogue; any other continuation line
prints a diagnostic and returns false keeping the dialogue active. -/
theorem restart_dialogue_spec (a0 cls : String) :
    RestartCommand.exec false [a0]
        = { output := ["Choose your class: [ warrior, ranger, mage ]"],
            completed := false, readClass := true, restartCalled := none }
      ∧ ((cls = "warrior" ∨ cls = "ranger" ∨ cls = "mage") →
          RestartCommand.exec true [cls]
            = { output := [], completed := true, readClass := false,
                restartCalled := some cls })
      ∧ (¬ (cls = "warrior" ∨ cls = "ranger" ∨ cls = "mage") →
          RestartCommand.exec true [cls]
            = { output := ["Unknown class name " ++ cls,
                           "Please enter one class name: warrior, ranger or mage."],
                completed := false, readClass := true, restartCalled := none }) := by
  refine ⟨rfl, ?_, ?_⟩
  · intro hc
    show restartFinish true cls = _
    unfold restartFinish
    rw [if_pos hc]
  · intro hc
    show restartFinish true cls = _
    unfold restartFinish
    rw [if_neg hc]
    rfl

theorem restart_dialogue_spec_witness :
    RestartCommand.exec false ["restart"]
        = { output := ["Choose your class: [ warrior, ranger, mage ]"],
            completed := false, readClass := true, restartCalled := none }
      ∧ RestartCommand.exec true ["mage"]
        = { output := [], completed := true, readClass := false,
            restartCalled := some "mage" }
      ∧ RestartCommand.exec true ["dragon"]
        = { output := ["Unknown class name dragon",
                       "Please enter one class name: warrior, ranger or mage."],
            completed := false, readClass := true, restartCalled := none } :=
  ⟨(restart_dialogue_spec "restart" "mage").1,
   (restart_dialogue_spec "restart" "mage").2.1 (Or.inr (Or.inr rfl)),
   (restart_dialogue_spec "restart" "dragon").2.2 (by decide)⟩

/-- C7: a use invocation naming an owned skill whose usable() is false
prints the fixed diagnostic and returns before any target resolution,
whatever the remaining arguments are: useOn is not called, the state is
unchanged (so no mana is deducted) and the turn does not advance. -/
theorem use_unusable_skill_spec (st : GameState) (node : MapNode) (p : Character)
    (a0 sname : String) (rest : List String) (sk : Skill)
    (hn : st.playerNode? = some node)
    (hfind : node.characters.find? (fun c => c.name == st.playerName) = some p)
    (halive : p.isAlive = true)
    (hskill : p.skill sname = some sk)
    (husable : sk.usableFlag = false) :
    UseCommand.exec st (a0 :: sname :: rest)
      = { ExecResult.base st with output := ["You can't use this skill right now."] } := by
  unfold UseCommand.exec withPlayer
  simp only [hn, hfind]
  simp [halive, hskill, husable]

theorem use_unusable_skill_spec_witness :
    UseCommand.exec stUnusable ["use", "bomb", "0"]
      = { ExecResult.base stUnusable with
          output := ["You can't use this skill right now."] } :=
  use_unusable_skill_spec stUnusable
    { name := "Base", exits := [], characters := [tiredHero, orcChar] }
    tiredHero "use" "bomb" ["0"] unusableBomb rfl rfl rfl rfl rfl

/-- C8: a go command by an alive player whose lowercased direction is
not an exit of the current node prints the Unknown direction
diagnostic, leaves the state unchanged (the player stays at its node)
and does not call nextTurn. -/
theorem go_unknown_direction_spec (st : GameState) (node : MapNode) (p : Character)
    (a0 dirArg : String)
    (hn : st.playerNode? = some node)
    (hfind : node.characters.find? (fun c => c.name == st.playerName) = some p)
    (halive : p.isAlive = true)
    (hdest : node.destination (toLower dirArg) = none) :
    GoCommand.exec st [a0, dirArg]
      = { ExecResult.base st with
          output := ["Unknown direction \"" ++ toLower dirArg ++ "\""] } := by
  unfold GoCommand.exec withPlayer
  simp only [hn, hfind]
  simp [halive, hdest]

theorem go_unknown_direction_spec_witness :
    GoCommand.exec stGame ["go", "blue"]
      = { ExecResult.base stGame with output := ["Unknown direction \"blue\""] } :=
  go_unknown_direction_spec stGame baseNode heroChar "go" "blue" rfl rfl rfl (by decide)

/-- C9: a move front or move back by an alive player is a no-op printing
the already-there message when the requested row equals the current
row (no row change, no turn advance); otherwise it places the player in
the requested row and calls nextTurn exactly once. -/
theorem move_row_spec (st : GameState) (node : MapNode) (p : Character)
    (a0 arg1 : String) (pl : Place)
    (hn : st.playerNode? = some node)
    (hfind : node.characters.find? (fun c => c.name == st.playerName) = some p)
    (halive : p.isAlive = true)
    (harg : arg1 = "front" ∨ arg1 = "back")
    (hpl : pl = if arg1 = "front" then Place.FRONT else Place.BACK) :
    (pl = p.place →
        MoveCommand.exec st [a0, arg1]
          = { ExecResult.base st with
              output := ["You already are at the " ++ arg1 ++ " row."] })
      ∧ (pl ≠ p.place →
          (MoveCommand.exec st [a0, arg1]).placeCharacterCalled = true
            ∧ (MoveCommand.exec st [a0, arg1]).nextTurnCalls = 1
            ∧ (MoveCommand.exec st [a0, arg1]).state.player?.map (fun c => c.place) = some pl
            ∧ (MoveCommand.exec st [a0, arg1]).state.turn = st.turn + 1
            ∧ (MoveCommand.exec st [a0, arg1]).completed = true) := by
  have hplayer : st.player? = some p := player?_of_find st node p hn hfind
  have hguard : ¬ (arg1 ≠ "front" ∧ arg1 ≠ "back") := by
    rcases harg with h | h
    · exact fun hcon => hcon.1 h
    · exact fun hcon => hcon.2 h
  constructor
  · intro hsame
    unfold MoveCommand.exec withPlayer
    simp only [hn, hfind]
    rw [← hpl]
    simp [halive, hguard, hsame]
  · intro hdiff
    have hr : MoveCommand.exec st [a0, arg1]
        = { ExecResult.base (st.placeCharacter p pl).nextTurn with
            placeCharacterCalled := true, nextTurnCalls := 1 } := by
      unfold MoveCommand.exec withPlayer
      simp only [hn, hfind]
      rw [← hpl]
      simp [halive, hguard, hdiff]
    rw [hr]
    refine ⟨rfl, rfl, ?_, rfl, rfl⟩
    show ((st.placeCharacter p pl).nextTurn).player?.map (fun c => c.place) = some pl
    rw [player?_nextTurn]
    exact placeCharacter_player_place st p pl hplayer

theorem move_row_spec_witness :
    (MoveCommand.exec stGame ["move", "front"]
        = { ExecResult.base stGame with
            output := ["You already are at the front row."] })
      ∧ ((MoveCommand.exec stGame ["move", "back"]).placeCharacterCalled = true
          ∧ (MoveCommand.exec stGame ["move", "back"]).nextTurnCalls = 1
          ∧ (MoveCommand.exec stGame ["move", "back"]).state.player?.map (fun c => c.place)
              = some Place.BACK
          ∧ (MoveCommand.exec stGame ["move", "back"]).state.turn = stGame.turn + 1
          ∧ (MoveCommand.exec stGame ["move", "back"]).completed = true) :=
  ⟨(move_row_spec stGame baseNode heroChar "move" "front" Place.FRONT
      rfl rfl rfl (Or.inl rfl) rfl).1 rfl,
   (move_row_spec stGame baseNode heroChar "move" "back" Place.BACK
      rfl rfl rfl (Or.inr rfl) (by decide)).2 (by decide)⟩

/-- C5 counterexample: in a state whose player is dead, the wait command
(which is not help, info or restart) does not short-circuit with the
dead message: it prints nothing and calls nextTurn, advancing the turn
counter. -/
theorem wait_dead_no_guard_counterexample :
    stDead.player?.map Character.isAlive = some false
      ∧ (WaitCommand.exec stDead ["wait"]).output ≠ [deadMessage]
      ∧ (WaitCommand.exec stDead ["wait"]).output = []
      ∧ (WaitCommand.exec stDead ["wait"]).nextTurnCalls = 1
      ∧ (WaitCommand.exec stDead ["wait"]).state.turn = stDead.turn + 1 :=
  ⟨rfl, by simp [WaitCommand.exec, ExecResult.base], rfl, rfl, rfl⟩

/-- C5 amended: every command except help, info, restart and wait, when
executed while the player is dead, short-circuits with the fixed dead
message and performs no other action: state unchanged, no collaborator
call, returns true.  Wait is excluded because it runs nextTurn without
a dead-player guard — it is the respawn mechanism the dead message
itself points to. -/
theorem dead_guard_spec (st : GameState) (node : MapNode) (p : Character)
    (args : List String)
    (hn : st.playerNode? = some node)
    (hfind : node.characters.find? (fun c => c.name == st.playerName) = some p)
    (hdead : p.isAlive = false) :
    LookCommand.exec st args = { ExecResult.base st with output := [deadMessage] }
      ∧ DirectionsCommand.exec st args = { ExecResult.base st with output := [deadMessage] }
      ∧ GoCommand.exec st args = { ExecResult.base st with output := [deadMessage] }
      ∧ MoveCommand.exec st args = { ExecResult.base st with output := [deadMessage] }
      ∧ AttackCommand.exec st args = { ExecResult.base st with output := [deadMessage] }
      ∧ UseCommand.exec st args = { ExecResult.base st with output := [deadMessage] } := by
  refine ⟨?_, ?_, ?_, ?_, ?_, ?_⟩
  · unfold LookCommand.exec withPlayer
    simp only [hn, hfind]
    simp [hdead]
  · unfold DirectionsCommand.exec withPlayer
    simp only [hn, hfind]
    simp [hdead]
  · unfold GoCommand.exec withPlayer
    simp only [hn, hfind]
    simp [hdead]
  · unfold MoveCommand.exec withPlayer
    simp only [hn, hfind]
    simp [hdead]
  · unfold AttackCommand.exec withPlayer
    simp only [hn, hfind]
    simp [hdead]
  · unfold UseCommand.exec withPlayer
    simp only [hn, hfind]
    simp [hdead]

theorem dead_guard_spec_witness :
    LookCommand.exec stDead ["look"]
        = { ExecResult.base stDead with output := [deadMessage] }
      ∧ DirectionsCommand.exec stDead ["look"]
        = { ExecResult.base stDead with output := [deadMessage] }
      ∧ GoCommand.exec stDead ["look"]
        = { ExecResult.base stDead with output := [deadMessage] }
      ∧ MoveCommand.exec stDead ["look"]
        = { ExecResult.base stDead with output := [deadMessage] }
      ∧ AttackCommand.exec stDead ["look"]
        = { ExecResult.base stDead with output := [deadMessage] }
      ∧ UseCommand.exec stDead ["look"]
        = { ExecResult.base stDead with output := [deadMessage] } :=
  dead_guard_spec stDead deadNode deadHero ["look"] rfl rfl rfl

/-- C6: a non-numeric index string given to attack, or to use with a
Single-mode skill, is reported with an I-don't-understand diagnostic
and the handler returns normally: no exception escapes, the state is
unchanged and the turn does not advance. -/
theorem nonnumeric_index_spec (st : GameState) (node : MapNode) (p : Character)
    (a0 u sname idxArg : String) (sk : Skill)
    (hn : st.playerNode? = some node)
    (hfind : node.characters.find? (fun c => c.name == st.playerName) = some p)
    (halive : p.isAlive = true)
    (hstoi : stoi idxArg = StoiResult.invalidArgument)
    (hskill : p.skill sname = some sk)
    (husable : sk.usableFlag = true)
    (hmode : sk.targetMode = TargetMode.SINGLE) :
    AttackCommand.exec st [a0, idxArg]
        = { ExecResult.base st with
            output := ["I don't understand who you try to attack."] }
      ∧ UseCommand.exec st [u, sname, idxArg]
        = { ExecResult.base st with
            output := ["I don't understand who you're trying to attack."] } := by
  constructor
  · unfold AttackCommand.exec withPlayer
    simp only [hn, hfind]
    simp [halive, hstoi]
  · unfold UseCommand.exec withPlayer
    simp only [hn, hfind]
    simp [halive, hskill, husable, hmode, hstoi]

theorem nonnumeric_index_spec_witness :
    AttackCommand.exec stGame ["attack", "orc"]
        = { ExecResult.base stGame with
            output := ["I don't understand who you try to attack."] }
      ∧ UseCommand.exec stGame ["use", "bomb", "orc"]
        = { ExecResult.base stGame with
            output := ["I don't understand who you're trying to attack."] } :=
  nonnumeric_index_spec stGame baseNode heroChar "attack" "use" "bomb" "orc" bombSkill
    rfl rfl rfl (by decide) rfl rfl rfl

/-- C10: an index argument that parses as a negative 32-bit integer is
converted to an unsigned index of at least 2^31, so the characterAt
lookup finds no character (any realistic roster being smaller) and both
attack and Single-mode use print the Invalid-target diagnostic without
crashing or mutating state. -/
theorem negative_index_spec (st : GameState) (node : MapNode) (p : Character)
    (a0 u sname idxArg : String) (sk : Skill) (i : Int)
    (hn : st.playerNode? = some node)
    (hfind : node.characters.find? (fun c => c.name == st.playerName) = some p)
    (halive : p.isAlive = true)
    (hstoi : stoi idxArg = StoiResult.ok i)
    (hneg : i < 0)
    (hlen : node.characters.length ≤ 2147483648)
    (hskill : p.skill sname = some sk)
    (husable : sk.usableFlag = true)
    (hmode : sk.targetMode = TargetMode.SINGLE) :
    AttackCommand.exec st [a0, idxArg]
        = { ExecResult.base st with output := ["Invalid target."] }
      ∧ UseCommand.exec st [u, sname, idxArg]
        = { ExecResult.base st with output := ["Invalid target."] } := by
  have hbounds := stoi_ok_bounds hstoi
  have hchar : node.characterAt (intToUnsigned i) = none :=
    characterAt_intToUnsigned_neg node hbounds.1 hneg hlen
  constructor
  · unfold AttackCommand.exec withPlayer
    simp only [hn, hfind]
    simp [halive, hstoi, hchar]
  · unfold UseCommand.exec withPlayer
    simp only [hn, hfind]
    simp [halive, hskill, husable, hmode, hstoi, hchar]

theorem negative_index_spec_witness :
    AttackCommand.exec stGame ["attack", "-1"]
        = { ExecResult.base stGame with output := ["Invalid target."] }
      ∧ UseCommand.exec stGame ["use", "bomb", "-1"]
        = { ExecResult.base stGame with output := ["Invalid target."] } :=
  negative_index_spec stGame baseNode heroChar "attack" "use" "bomb" "-1" bombSkill (-1)
    rfl rfl rfl (by decide) (by decide) (by decide) rfl rfl rfl

/-- C1: for an alive player attacking with one index argument that
parses, attack is performed and the turn advances exactly when the
index resolves to an existing, alive, enemy character within the
player's range; on any failed check a single diagnostic line is
printed, the state (hence every character's health) is unchanged and
nextTurn is not called. -/
theorem attack_exec_spec (st : GameState) (node : MapNode) (p : Character)
    (a0 idxArg : String) (i : Int)
    (hn : st.playerNode? = some node)
    (hfind : node.characters.find? (fun c => c.name == st.playerName) = some p)
    (halive : p.isAlive = true)
    (hstoi : stoi idxArg = StoiResult.ok i) :
    (((AttackCommand.exec st [a0, idxArg]).attackCalled = true
        ∧ (AttackCommand.exec st [a0, idxArg]).nextTurnCalls = 1)
      ↔ (∃ t, node.characterAt (intToUnsigned i) = some t ∧ t.isAlive = true
            ∧ t.team ≠ p.team ∧ distanceBetween p t ≤ p.range))
      ∧ ((AttackCommand.exec st [a0, idxArg]).attackCalled = false →
          (AttackCommand.exec st [a0, idxArg]).state = st
            ∧ (AttackCommand.exec st [a0, idxArg]).nextTurnCalls = 0
            ∧ (AttackCommand.exec st [a0, idxArg]).output.length = 1) := by
  unfold AttackCommand.exec withPlayer
  simp only [hn, hfind]
  simp only [halive, hstoi]
  cases hchar : node.characterAt (intToUnsigned i) with
  | none =>
    simp [hchar, ExecResult.base]
  | some t =>
    simp only [hchar]
    by_cases htA : t.isAlive = true
    · by_cases hteam : t.team = p.team
      · simp only [htA, hteam]
        simp [ExecResult.base]
        intro _ ht'
        exact absurd hteam ht'
      · by_cases hrange : p.range < distanceBetween p t
        · simp only [htA, hteam]
          simp [ExecResult.base, hrange]
        · simp only [htA, hteam]
          simp [ExecResult.base, hrange]
          exact ⟨htA, hteam, by omega⟩
    · simp [htA, ExecResult.base]

theorem attack_exec_spec_witness :
    (((AttackCommand.exec stGame ["attack", "1"]).attackCalled = true
        ∧ (AttackCommand.exec stGame ["attack", "1"]).nextTurnCalls = 1)
      ↔ (∃ t, baseNode.characterAt (intToUnsigned 1) = some t ∧ t.isAlive = true
            ∧ t.team ≠ heroChar.team ∧ distanceBetween heroChar t ≤ heroChar.range))
      ∧ ((AttackCommand.exec stGame ["attack", "1"]).attackCalled = false →
          (AttackCommand.exec stGame ["attack", "1"]).state = stGame
            ∧ (AttackCommand.exec stGame ["attack", "1"]).nextTurnCalls = 0
            ∧ (AttackCommand.exec stGame ["attack", "1"]).output.length = 1) :=
  attack_exec_spec stGame baseNode heroChar "attack" "1" 1 rfl rfl rfl (by decide)

/-- C2: a go command by an alive player naming an exit of the current
node moves the player to the destination, runs an implicit look whose
output describes the destination, and calls nextTurn exactly once, so
the player's node becomes the destination and the turn counter
increments by one. -/
theorem go_exit_spec (st : GameState) (node : MapNode) (p : Character)
    (a0 dirArg destName : String)
    (hn : st.playerNode? = some node)
    (hfind : node.characters.find? (fun c => c.name == st.playerName) = some p)
    (halive : p.isAlive = true)
    (hdest : node.destination (toLower dirArg) = some destName)
    (hex : ∃ n ∈ st.nodes, n.name = destName) :
    (GoCommand.exec st [a0, dirArg]).moveCharacterCalled = true
      ∧ (GoCommand.exec st [a0, dirArg]).lookCalls = 1
      ∧ (GoCommand.exec st [a0, dirArg]).nextTurnCalls = 1
      ∧ (GoCommand.exec st [a0, dirArg]).completed = true
      ∧ (GoCommand.exec st [a0, dirArg]).state.turn = st.turn + 1
      ∧ ((GoCommand.exec st [a0, dirArg]).state.playerNode?).map (fun n => n.name)
          = some destName
      ∧ ((GoCommand.exec st [a0, dirArg]).output.head?
          = some ("You are at " ++ destName ++ ".")) := by
  have hpname : p.name = st.playerName := by
    have := List.find?_some hfind
    simpa using this
  obtain ⟨n', hn', hn'name, hn'find⟩ :=
    playerNode?_moveCharacter st p destName hpname hex
  have hr : GoCommand.exec st [a0, dirArg]
      = { ExecResult.base (st.moveCharacter p destName).nextTurn with
          output := (LookCommand.exec (st.moveCharacter p destName) ["look"]).output
          moveCharacterCalled := true
          lookCalls := 1
          nextTurnCalls := 1 } := by
    unfold GoCommand.exec withPlayer
    simp only [hn, hfind]
    simp [halive, hdest]
  have hlook : (LookCommand.exec (st.moveCharacter p destName) ["look"]).output
      = lookLines n' p := by
    have hpn : (st.moveCharacter p destName).playerName = st.playerName := rfl
    unfold LookCommand.exec withPlayer
    simp only [hn', hpn, hn'find]
    simp [halive]
  rw [hr]
  refine ⟨rfl, rfl, rfl, rfl, rfl, ?_, ?_⟩
  · show ((st.moveCharacter p destName).nextTurn.playerNode?).map (fun n => n.name)
      = some destName
    rw [playerNode?_nextTurn, hn']
    simp [hn'name]
  · show (LookCommand.exec (st.moveCharacter p destName) ["look"]).output.head?
      = some ("You are at " ++ destName ++ ".")
    rw [hlook]
    unfold lookLines
    simp [hn'name]

theorem go_exit_spec_witness :
    (GoCommand.exec stGame ["go", "red"]).moveCharacterCalled = true
      ∧ (GoCommand.exec stGame ["go", "red"]).lookCalls = 1
      ∧ (GoCommand.exec stGame ["go", "red"]).nextTurnCalls = 1
      ∧ (GoCommand.exec stGame ["go", "red"]).completed = true
      ∧ (GoCommand.exec stGame ["go", "red"]).state.turn = stGame.turn + 1
      ∧ ((GoCommand.exec stGame ["go", "red"]).state.playerNode?).map (fun n => n.name)
          = some "RedCamp"
      ∧ ((GoCommand.exec stGame ["go", "red"]).output.head?
          = some ("You are at " ++ "RedCamp" ++ ".")) :=
  go_exit_spec stGame baseNode heroChar "go" "red" "RedCamp" rfl rfl rfl (by decide)
    ⟨redCampNode, by decide, rfl⟩

theorem useFinish_spec (st : GameState) (p : Character) (sk : Skill)
    (targets : List Character)
    (hp : st.player? = some p) :
    ((useFinish st p sk targets).useOnCalled = false →
        (useFinish st p sk targets).state = st
          ∧ (useFinish st p sk targets).nextTurnCalls = 0)
      ∧ ((useFinish st p sk targets).useOnCalled = true →
          (useFinish st p sk targets).state.player?.map (fun c => c.mana)
              = some (p.mana - sk.manaCost)
            ∧ (useFinish st p sk targets).nextTurnCalls = 1) := by
  by_cases he : targets.isEmpty
  · have hrec : useFinish st p sk targets
        = { ExecResult.base st with output := ["No targets in range."] } := by
      unfold useFinish
      rw [if_pos he]
    rw [hrec]
    exact ⟨fun _ => ⟨rfl, rfl⟩, fun hcon => by simp [ExecResult.base] at hcon⟩
  · have hrec : useFinish st p sk targets
        = { ExecResult.base ((sk.useOn targets (st.updateCharacter p.name (fun c => { c with mana := c.mana - sk.manaCost }))).nextTurn) with useOnCalled := true, nextTurnCalls := 1 } := by
      unfold useFinish
      rw [if_neg he]
    rw [hrec]
    refine ⟨fun hcon => by simp [ExecResult.base] at hcon, fun _ => ⟨?_, rfl⟩⟩
    show ((sk.useOn targets (st.updateCharacter p.name (fun c => { c with mana := c.mana - sk.manaCost }))).nextTurn).player?.map (fun c => c.mana) = some (p.mana - sk.manaCost)
    rw [player?_nextTurn, useOn_player_mana]
    exact updateCharacter_player_mana st p sk.manaCost hp

/-- C3: for every use invocation by an alive player, either the
invocation fails validation — unknown skill, unusable skill, bad or
invalid target index, wrong team, out of range, or empty target
vector — and then useOn is not called, the state is unchanged (no mana
deducted) and the turn does not advance; or useOn is called and then
the caster's mana has been decremented by the skill's mana cost exactly
once, by the command layer, and the turn advances by one nextTurn
call. -/
theorem use_mana_spec (st : GameState) (node : MapNode) (p : Character)
    (a0 sname : String) (rest : List String)
    (hn : st.playerNode? = some node)
    (hfind : node.characters.find? (fun c => c.name == st.playerName) = some p)
    (halive : p.isAlive = true) :
    ((UseCommand.exec st (a0 :: sname :: rest)).useOnCalled = false →
        (UseCommand.exec st (a0 :: sname :: rest)).state = st
          ∧ (UseCommand.exec st (a0 :: sname :: rest)).nextTurnCalls = 0)
      ∧ ((UseCommand.exec st (a0 :: sname :: rest)).useOnCalled = true →
          ∃ sk, p.skill sname = some sk
            ∧ (UseCommand.exec st (a0 :: sname :: rest)).state.player?.map (fun c => c.mana)
                = some (p.mana - sk.manaCost)
            ∧ (UseCommand.exec st (a0 :: sname :: rest)).nextTurnCalls = 1) := by
  have hplayer : st.player? = some p := player?_of_find st node p hn hfind
  unfold UseCommand.exec withPlayer
  simp only [hn, hfind]
  rw [if_neg (fun h => h halive)]
  cases hskill : p.skill sname with
  | none =>
    simp only [hskill]
    exact ⟨fun _ => ⟨rfl, rfl⟩, fun hcon => (Bool.false_ne_true hcon).elim⟩
  | some sk =>
    simp only [hskill]
    by_cases hus : sk.usableFlag = true
    · rw [if_neg (fun h => h hus)]
      have hfin : ∀ targets : List Character,
          ((useFinish st p sk targets).useOnCalled = false →
              (useFinish st p sk targets).state = st
                ∧ (useFinish st p sk targets).nextTurnCalls = 0)
            ∧ ((useFinish st p sk targets).useOnCalled = true →
                ∃ sk', some sk = some sk'
                  ∧ (useFinish st p sk targets).state.player?.map (fun c => c.mana)
                      = some (p.mana - sk'.manaCost)
                  ∧ (useFinish st p sk targets).nextTurnCalls = 1) := by
        intro targets
        have h := useFinish_spec st p sk targets hplayer
        exact ⟨h.1, fun ht => ⟨sk, rfl, (h.2 ht).1, (h.2 ht).2⟩⟩
      cases hmode : sk.targetMode with
      | SINGLE =>
        simp only [hmode]
        cases rest with
        | nil => exact ⟨fun _ => ⟨rfl, rfl⟩, fun hcon => (Bool.false_ne_true hcon).elim⟩
        | cons r1 rs =>
          cases rs with
          | cons r2 rs' =>
            exact ⟨fun _ => ⟨rfl, rfl⟩, fun hcon => (Bool.false_ne_true hcon).elim⟩
          | nil =>
            dsimp only
            cases hstoi : stoi r1 with
            | invalidArgument =>
              simp only [hstoi]
              exact ⟨fun _ => ⟨rfl, rfl⟩, fun hcon => (Bool.false_ne_true hcon).elim⟩
            | outOfRange =>
              simp only [hstoi]
              exact ⟨fun _ => ⟨rfl, rfl⟩, fun hcon => (Bool.false_ne_true hcon).elim⟩
            | ok i =>
              simp only [hstoi]
              cases hchar : node.characterAt (intToUnsigned i) with
              | none =>
                simp only [hchar]
                exact ⟨fun _ => ⟨rfl, rfl⟩, fun hcon => (Bool.false_ne_true hcon).elim⟩
              | some target =>
                simp only [hchar]
                by_cases htA : target.isAlive = true
                · rw [if_neg (fun h => h htA)]
                  by_cases hteam : target.team = sk.targetTeam
                  · rw [if_neg (fun h => h hteam)]
                    by_cases hemp : (sk.targetsSingle p target).isEmpty = true
                    · rw [if_pos hemp]
                      exact ⟨fun _ => ⟨rfl, rfl⟩, fun hcon => (Bool.false_ne_true hcon).elim⟩
                    · rw [if_neg hemp]
                      exact hfin (sk.targetsSingle p target)
                  · rw [if_pos hteam]
                    exact ⟨fun _ => ⟨rfl, rfl⟩, fun hcon => (Bool.false_ne_true hcon).elim⟩
                · rw [if_pos htA]
                  exact ⟨fun _ => ⟨rfl, rfl⟩, fun hcon => (Bool.false_ne_true hcon).elim⟩
      | ANY_ROW =>
        simp only [hmode]
        cases rest with
        | nil => exact ⟨fun _ => ⟨rfl, rfl⟩, fun hcon => (Bool.false_ne_true hcon).elim⟩
        | cons r1 rs =>
          cases rs with
          | cons r2 rs' =>
            exact ⟨fun _ => ⟨rfl, rfl⟩, fun hcon => (Bool.false_ne_true hcon).elim⟩
          | nil =>
            dsimp only
            by_cases hrow : r1 ≠ "front" ∧ r1 ≠ "back"
            · rw [if_pos hrow]
              exact ⟨fun _ => ⟨rfl, rfl⟩, fun hcon => (Bool.false_ne_true hcon).elim⟩
            · rw [if_neg hrow]
              exact hfin (sk.targetsRow p node (if r1 = "front" then Place.FRONT else Place.BACK))
      | OTHER =>
        simp only [hmode]
        exact hfin (sk.targetsImplicit p node)
    · rw [if_pos hus]
      exact ⟨fun _ => ⟨rfl, rfl⟩, fun hcon => (Bool.false_ne_true hcon).elim⟩

theorem use_mana_spec_witness :
    ((UseCommand.exec stGame ["use", "bomb", "1"]).useOnCalled = false →
        (UseCommand.exec stGame ["use", "bomb", "1"]).state = stGame
          ∧ (UseCommand.exec stGame ["use", "bomb", "1"]).nextTurnCalls = 0)
      ∧ ((UseCommand.exec stGame ["use", "bomb", "1"]).useOnCalled = true →
          ∃ sk, heroChar.skill "bomb" = some sk
            ∧ (UseCommand.exec stGame ["use", "bomb", "1"]).state.player?.map (fun c => c.mana)
                = some (heroChar.mana - sk.manaCost)
            ∧ (UseCommand.exec stGame ["use", "bomb", "1"]).nextTurnCalls = 1) :=
  use_mana_spec stGame baseNode heroChar "use" "bomb" ["1"] rfl rfl rfl
